import Mathlib

/-!
Verification of the mypm photo-import pipeline.

This file gives a shallow embedding, in Lean 4, of the photo-import core of
the mypm repository and settles the specification claims against it.

The authoritative source is `src/photo_importer.py` together with
`src/db/database.py`, `src/db/database_manager.py` and `src/db/photo_dao.py`.
(The variant `src/core/photo_importer.py` is dead code: it imports a
`DatabaseManager` symbol from `db.database`, which only defines `Database`,
so that module cannot even be imported; the application entry point
`src/main.py` -> `src/ui/main_window.py` uses the top-level
`src/photo_importer.py`.)

Modelling conventions:
* Machine state that Python reaches through the OS (the SQLite catalog, the
  library directory tree, the set of files on disk) is explicit data:
  the catalog is a list of rows plus the AUTOINCREMENT counter, the library
  file system is the list of existing file paths and the list of existing
  directories.  Paths inside the library are kept relative to the library
  root (`os.path.join(root, rel)` and `os.path.relpath(abs, root)` are
  mutually inverse, so the two coordinate systems are isomorphic; the
  stand-alone path planner `generate_target_path` is also modelled in
  absolute form, exactly as in the source).
* A candidate source file is a record carrying everything the import reads
  from it: its path, its content fingerprint (MD5 hex digest and byte size,
  abstracting `calculate_file_md5`), its exifread tag table, its PIL
  `_getexif` mapping, and its filesystem mtime.
* Python values stored in EXIF mappings are the inductive `PyVal`; a float
  is identified by its shortest round-trip decimal representation (Python's
  `repr`), which is a faithful bijection since no arithmetic is performed.
* `json.dumps` followed by `json.loads` is modelled by its composite effect
  `json_value` (tuples become JSON arrays and come back as lists; strings,
  ints, floats and string-keyed dicts are preserved), the documented
  behaviour of Python's json module on this value domain.
* The unbounded `while True` collision-resolution loop is modelled with
  explicit fuel `|files| + 1`; theorems about it are stated for successful
  searches, which the concrete witnesses exhibit.
-/

/-! ### Small path/string helpers (modelling `os.path`) -/

/-- Model of `os.path.join(d, f)` for the cases arising here ("" is the
neutral left argument, as in Python). -/
def joinPath (d f : String) : String :=
  if d = "" then f else d ++ "/" ++ f

/-- Split a character list at every occurrence of `sep` (the semantics of
`str.split(sep)` for a one-character separator). -/
def splitOnChar (sep : Char) : List Char → List (List Char)
  | [] => [[]]
  | c :: cs =>
    match splitOnChar sep cs with
    | [] => [[]]
    | h :: t => if c == sep then [] :: h :: t else (c :: h) :: t

/-- Join character-list components with '/'. -/
def joinWithSlash : List (List Char) → List Char
  | [] => []
  | [x] => x
  | x :: xs => x ++ '/' :: joinWithSlash xs

/-- Model of `os.path.basename` on slash-separated paths. -/
def basename (p : String) : String :=
  ⟨(splitOnChar '/' p.data).getLastD []⟩

/-- Model of `os.path.dirname` on slash-separated paths. -/
def dirnameOf (p : String) : String :=
  ⟨joinWithSlash ((splitOnChar '/' p.data).dropLast)⟩

/-- Model of `str.lower()` (ASCII case folding suffices for the extension
strings at hand). -/
def toLowerStr (s : String) : String :=
  ⟨s.data.map Char.toLower⟩

/-- Byte-wise string order, the SQLite BINARY collation (agrees with
code-point order on the ASCII strings this pipeline stores). -/
def lexLe : List Char → List Char → Bool
  | [], _ => true
  | _ :: _, [] => false
  | a :: as, b :: bs => if a == b then lexLe as bs else decide (a.toNat < b.toNat)

/-- String-level BINARY-collation comparison. -/
def strLe (a b : String) : Bool :=
  lexLe a.data b.data

/-- Index of the last '.' in a character list, if any. -/
def lastDotIdx (cs : List Char) : Option Nat :=
  match cs.reverse.findIdx? (· == '.') with
  | none => none
  | some j => some (cs.length - 1 - j)

/-- Model of `os.path.splitext` on a base name: split at the last dot,
unless every character before it is itself a dot (hidden-file rule). -/
def splitext (fname : String) : String × String :=
  match lastDotIdx fname.data with
  | none => (fname, "")
  | some i =>
    if (fname.data.take i).any (fun c => !(c == '.')) then
      (⟨fname.data.take i⟩, ⟨fname.data.drop i⟩)
    else
      (fname, "")

/-- Model of `str.lstrip('.')`. -/
def lstripDots (s : String) : String :=
  ⟨s.data.dropWhile (· == '.')⟩

/-! ### Timestamps and the embedded-date format -/

/-- A wall-clock timestamp as the import pipeline handles it (the fields of
a Python `datetime`, to second precision; microseconds never arise from
`strptime('%Y:%m:%d %H:%M:%S')`). -/
structure PhotoTime where
  year : Nat
  month : Nat
  day : Nat
  hour : Nat
  minute : Nat
  second : Nat
deriving DecidableEq, Repr

/-- Whether `y` is a Gregorian leap year, as Python's `calendar`/`datetime`
validation uses. -/
def isLeapYear (y : Nat) : Bool :=
  (y % 4 == 0 && y % 100 != 0) || y % 400 == 0

/-- Days in a month, used by `datetime`'s day-of-month validation. -/
def daysInMonth (y m : Nat) : Nat :=
  if m == 2 then (if isLeapYear y then 29 else 28)
  else if m == 4 || m == 6 || m == 9 || m == 11 then 30
  else 31

/-- Split a maximal leading run of ASCII digits from a character list. -/
def takeDigits : List Char → List Char × List Char
  | [] => ([], [])
  | c :: cs =>
    if c.isDigit then
      let r := takeDigits cs
      (c :: r.1, r.2)
    else
      ([], c :: cs)

/-- Numeric value of a digit run. -/
def digitsToNat (ds : List Char) : Nat :=
  ds.foldl (fun a c => a * 10 + (c.toNat - 48)) 0

/-- Whether a character is matched by `\s` for the ASCII inputs at hand. -/
def isPyWhitespace (c : Char) : Bool :=
  c == ' ' || c == '\t' || c == '\n' || c == '\r'

/-- Consume one or more whitespace characters (a literal blank in a
`strptime` format string matches `\s+`). -/
def dropWs1 : List Char → Option (List Char)
  | c :: cs => if isPyWhitespace c then some (cs.dropWhile isPyWhitespace) else none
  | [] => none

/-- Parse a 1-2 digit numeric field followed by nothing (the caller checks
the separator): returns the value and the rest. -/
def parseNumField (cs : List Char) : Option (Nat × List Char) :=
  let r := takeDigits cs
  if r.1.length == 0 || r.1.length > 2 then none
  else some (digitsToNat r.1, r.2)

/-- Model of `datetime.strptime(s, '%Y:%m:%d %H:%M:%S')`, returning `none`
exactly when Python raises `ValueError`: `%Y` is exactly four digits, the
other fields are one or two digits, the ranges are those `_strptime`'s
regular expressions plus `datetime`'s constructor enforce (month 1-12, day
1-daysInMonth, hour 0-23, minute 0-59, second 0-59 - the seconds 60/61 that
the regular expression would accept are rejected by the `datetime`
constructor, hence also yield `ValueError`), and the whole string must be
consumed. -/
def parseExifDatetime (s : String) : Option PhotoTime :=
  match s.data with
  | y1 :: y2 :: y3 :: y4 :: ':' :: rest1 =>
    if y1.isDigit && y2.isDigit && y3.isDigit && y4.isDigit then
      let year := digitsToNat [y1, y2, y3, y4]
      match parseNumField rest1 with
      | some (month, ':' :: rest2) =>
        match parseNumField rest2 with
        | some (day, rest3) =>
          match dropWs1 rest3 with
          | some rest4 =>
            match parseNumField rest4 with
            | some (hour, ':' :: rest5) =>
              match parseNumField rest5 with
              | some (minute, ':' :: rest6) =>
                match parseNumField rest6 with
                | some (second, []) =>
                  if 1 ≤ year ∧ 1 ≤ month ∧ month ≤ 12 ∧ 1 ≤ day ∧
                      day ≤ daysInMonth year month ∧ hour ≤ 23 ∧
                      minute ≤ 59 ∧ second ≤ 59 then
                    some ⟨year, month, day, hour, minute, second⟩
                  else none
                | _ => none
              | _ => none
            | _ => none
          | none => none
        | _ => none
      | _ => none
    else none
  | _ => none

/-- Zero-pad a number to (at least) two digits, the `%02d` / `strftime
'%m'` rendering. -/
def pad2 (n : Nat) : String :=
  if n < 100 then ⟨[Nat.digitChar (n / 10), Nat.digitChar (n % 10)]⟩
  else Nat.repr n

/-- Zero-pad a number to (at least) four digits, the `strftime '%Y'`
rendering for the years `datetime` supports. -/
def pad4 (n : Nat) : String :=
  if n < 10000 then
    ⟨[Nat.digitChar (n / 1000), Nat.digitChar (n / 100 % 10),
      Nat.digitChar (n / 10 % 10), Nat.digitChar (n % 10)]⟩
  else Nat.repr n

/-- Model of `datetime.isoformat()` at second precision. -/
def isoformat (t : PhotoTime) : String :=
  pad4 t.year ++ "-" ++ pad2 t.month ++ "-" ++ pad2 t.day ++ "T" ++
    pad2 t.hour ++ ":" ++ pad2 t.minute ++ ":" ++ pad2 t.second

/-! ### Python values carried by EXIF mappings -/

/-- The Python values that occur in a PIL `_getexif` mapping and in the
serialized metadata: strings, ints, floats (identified by their shortest
round-trip decimal representation), tuples, lists and string-keyed dicts. -/
inductive PyVal where
  | pyStr (s : String)
  | pyInt (n : Int)
  | pyFloat (r : String)
  | pyTuple (items : List PyVal)
  | pyList (items : List PyVal)
  | pyDict (items : List (String × PyVal))
deriving Repr

mutual

/-- Model of Python `repr` on this value domain (string escaping inside
quotes is not modelled; no claim depends on it). -/
def pyRepr : PyVal → String
  | .pyStr s => "'" ++ s ++ "'"
  | .pyInt n => toString n
  | .pyFloat r => r
  | .pyTuple [v] => "(" ++ pyRepr v ++ ",)"
  | .pyTuple items => "(" ++ pyReprJoin items ++ ")"
  | .pyList items => "[" ++ pyReprJoin items ++ "]"
  | .pyDict items => "\x7b" ++ pyReprDict items ++ "\x7d"

/-- Comma-join of elementwise `repr`, as Python renders containers. -/
def pyReprJoin : List PyVal → String
  | [] => ""
  | [v] => pyRepr v
  | v :: vs => pyRepr v ++ ", " ++ pyReprJoin vs

/-- Comma-join of `repr`ed key-value pairs of a dict. -/
def pyReprDict : List (String × PyVal) → String
  | [] => ""
  | [(k, v)] => "'" ++ k ++ "': " ++ pyRepr v
  | (k, v) :: vs => "'" ++ k ++ "': " ++ pyRepr v ++ ", " ++ pyReprDict vs

end

/-- Model of Python `str` (used by f-string interpolation): identity on
strings, `repr` on every other builtin involved here. -/
def pyStrF : PyVal → String
  | .pyStr s => s
  | v => pyRepr v

mutual

/-- Composite effect of `json.dumps` followed by `json.loads` on this value
domain: tuples are serialized as JSON arrays and deserialized as lists;
strings, ints, floats and string-keyed dicts come back unchanged. -/
def json_value : PyVal → PyVal
  | .pyStr s => .pyStr s
  | .pyInt n => .pyInt n
  | .pyFloat r => .pyFloat r
  | .pyTuple items => .pyList (jsonValList items)
  | .pyList items => .pyList (jsonValList items)
  | .pyDict items => .pyDict (jsonValDict items)

/-- `json_value` mapped over a list. -/
def jsonValList : List PyVal → List PyVal
  | [] => []
  | v :: vs => json_value v :: jsonValList vs

/-- `json_value` mapped over the values of a dict. -/
def jsonValDict : List (String × PyVal) → List (String × PyVal)
  | [] => []
  | (k, v) :: vs => (k, json_value v) :: jsonValDict vs

end

/-- Per-entry filter of `extract_exif_data` (src/photo_importer.py
lines 499-506): keep strings, ints and floats as they are, render 2-tuples
as the string `"a/b"`, and silently drop everything else - in particular
nested dicts such as the `GPSInfo` sub-mapping. -/
def keepExifVal (tag : String) (v : PyVal) : Option (String × PyVal) :=
  match v with
  | .pyStr _ => some (tag, v)
  | .pyInt _ => some (tag, v)
  | .pyFloat _ => some (tag, v)
  | .pyTuple [a, b] => some (tag, .pyStr (pyStrF a ++ "/" ++ pyStrF b))
  | _ => none

/-- Model of `extract_exif_data` (src/photo_importer.py lines 482-513): the
argument is the PIL `_getexif` mapping of the file after tag-name
translation, `none` when the file carries no EXIF data or reading it raised
(both return `None` in the source).  Builds the "readable" mapping entry by
entry with `keepExifVal`. -/
def extract_exif_data (exif : Option (List (String × PyVal))) :
    Option (List (String × PyVal)) :=
  match exif with
  | none => none
  | some items => some (items.filterMap fun p => keepExifVal p.1 p.2)

/-! ### Candidate source files and the capture-time resolver -/

/-- Everything the import pipeline reads from a candidate source file: its
path, its content fingerprint (MD5 hex digest and byte size, the result of
`calculate_file_md5`), whether opening/exifread parsing succeeds, the
exifread tag table (tag name to `str()` of the tag value), the PIL
`_getexif` mapping, and the filesystem modification time. -/
structure SrcFile where
  path : String
  md5 : String
  size : Nat
  exifReadable : Bool
  tags : List (String × String)
  exif : Option (List (String × PyVal))
  mtime : PhotoTime
deriving Repr

/-- The embedded-date tag names tried by `extract_photo_datetime`, in the
source's priority order (src/photo_importer.py lines 371-376): the original
capture tag, the digitized tag, then the generic modification tags. -/
def exifTimeTags : List String :=
  ["EXIF DateTimeOriginal", "EXIF CreateDate", "EXIF DateTime", "Image DateTime"]

/-- The `for tag_name in time_tags` loop of `extract_photo_datetime`: first
tag that is present and parses wins; a present tag that fails to parse is
skipped (`except ValueError: continue`). -/
def findTimeLoop (tags : List (String × String)) : List String → Option PhotoTime
  | [] => none
  | n :: rest =>
    match tags.lookup n with
    | none => findTimeLoop tags rest
    | some s =>
      match parseExifDatetime s with
      | some t => some t
      | none => findTimeLoop tags rest

/-- Model of `extract_photo_datetime` (src/photo_importer.py lines
354-394): try the embedded tags in priority order, fall back to the file's
modification time when none is present or parses, or when reading the file
raises. -/
def extract_photo_datetime (f : SrcFile) : PhotoTime :=
  if f.exifReadable then
    match findTimeLoop f.tags exifTimeTags with
    | some t => t
    | none => f.mtime
  else
    f.mtime

/-! ### The catalog store (src/db/database.py, photos table) -/

/-- One row of the `photos` table (src/db/database.py lines 60-75).  The
`exif_json` column holds serialized JSON text; the stored text is modelled
by its JSON value (see `json_value`). -/
structure PhotoRecord where
  id : Nat
  filename : String
  path : String
  md5 : String
  size : Nat
  created_at : Option String
  imported_at : String
  type : String
  exif_json : Option PyVal
  thumbnail_path : Option String
  is_deleted : Bool
deriving Repr

/-- The photos table together with the AUTOINCREMENT counter providing
fresh `id`s. -/
structure Catalog where
  photos : List PhotoRecord
  nextId : Nat
deriving Repr

/-- Model of `Database.photo_exists` (src/db/database.py lines 261-280):
a live (non-deleted) row with this (md5, size) exists. -/
def Catalog.photo_exists (c : Catalog) (md5 : String) (size : Nat) : Bool :=
  c.photos.any fun p => p.md5 == md5 && p.size == size && !p.is_deleted

/-- The column values `Database.add_photo` receives (its `photo_data`
dict). -/
structure PhotoData where
  filename : String
  path : String
  md5 : String
  size : Nat
  created_at : Option String
  imported_at : String
  type : String
  exif_json : Option PyVal
  thumbnail_path : Option String
deriving Repr

/-- Whether inserting `d` violates a schema uniqueness constraint: the
table declares `path TEXT NOT NULL UNIQUE` and `UNIQUE(md5, size)` over ALL
rows, soft-deleted ones included (src/db/database.py lines 60-75). -/
def Catalog.violatesUnique (c : Catalog) (d : PhotoData) : Bool :=
  c.photos.any fun p => (p.md5 == d.md5 && p.size == d.size) || p.path == d.path

/-- Model of `Database.add_photo` (src/db/database.py lines 217-259): the
INSERT raises `sqlite3.IntegrityError` exactly when a uniqueness constraint
is violated; that exception - like the generic `sqlite3.Error` branch - is
swallowed and `None` is returned with the table unchanged (the transaction
is not committed).  On success the fresh row id is returned and the row
appended. -/
def Catalog.add_photo (c : Catalog) (d : PhotoData) : Option Nat × Catalog :=
  if c.violatesUnique d then
    (none, c)
  else
    (some c.nextId,
     { photos := c.photos ++
         [{ id := c.nextId, filename := d.filename, path := d.path,
            md5 := d.md5, size := d.size, created_at := d.created_at,
            imported_at := d.imported_at, type := d.type,
            exif_json := d.exif_json, thumbnail_path := d.thumbnail_path,
            is_deleted := false }],
       nextId := c.nextId + 1 })

/-! ### The photo DAO (src/db/photo_dao.py) -/

/-- Model of `json.loads(photo['exif_json'])` with the `None`-column and
decode-error fallbacks to `{}` (src/db/photo_dao.py lines 85-92). -/
def exifDataOf : Option PyVal → PyVal
  | none => .pyDict []
  | some v => v

/-- A row as the DAO returns it: the record plus the deserialized
`exif_data` entry. -/
structure PhotoRow where
  record : PhotoRecord
  exif_data : PyVal
deriving Repr

/-- Attach the deserialized EXIF mapping to a record. -/
def mkRow (p : PhotoRecord) : PhotoRow :=
  ⟨p, exifDataOf p.exif_json⟩

/-- Model of `PhotoDAO.get_photo_by_id` (src/db/photo_dao.py lines 66-98):
note the `WHERE id = ? AND is_deleted = 0` filter - soft-deleted rows are
not returned here either. -/
def Catalog.get_photo_by_id (c : Catalog) (pid : Nat) : Option PhotoRow :=
  match c.photos.find? (fun p => p.id == pid && !p.is_deleted) with
  | none => none
  | some p => some (mkRow p)

/-- Stable insertion into a sorted list, one step of the model of SQL
`ORDER BY`. -/
def insertSorted (le : PhotoRecord → PhotoRecord → Bool) (p : PhotoRecord) :
    List PhotoRecord → List PhotoRecord
  | [] => [p]
  | q :: qs => if le p q then p :: q :: qs else q :: insertSorted le p qs

/-- Stable sort modelling SQL `ORDER BY` (any stable sort is a faithful
model; insertion sort keeps the development elementary). -/
def sortBy (le : PhotoRecord → PhotoRecord → Bool) :
    List PhotoRecord → List PhotoRecord
  | [] => []
  | p :: ps => insertSorted le p (sortBy le ps)

/-- Descending string order on `imported_at` (`ORDER BY imported_at DESC`
under the byte-wise BINARY collation). -/
def byImportedDesc (a b : PhotoRecord) : Bool :=
  strLe b.imported_at a.imported_at

/-- Descending order on `created_at` (`ORDER BY created_at DESC`). -/
def byCreatedDesc (a b : PhotoRecord) : Bool :=
  strLe (b.created_at.getD "") (a.created_at.getD "")

/-- Model of `PhotoDAO.get_recent_photos` (src/db/photo_dao.py lines
134-168): live rows, newest import first, at most `limit`. -/
def Catalog.get_recent_photos (c : Catalog) (limit : Nat) : List PhotoRow :=
  (((sortBy byImportedDesc (c.photos.filter fun p => !p.is_deleted)).take
      limit).map mkRow)

/-- Model of SQLite `DATE()` on the ISO-format strings this pipeline
stores: the date is the first ten characters. -/
def sqlDate (s : String) : String := s.take 10

/-- Model of `PhotoDAO.get_photos_by_date_range` (src/db/photo_dao.py lines
170-205): `DATE(created_at) BETWEEN ? AND ?` on live rows (a NULL
`created_at` satisfies no BETWEEN), newest capture first. -/
def Catalog.get_photos_by_date_range (c : Catalog) (start_date end_date : String) :
    List PhotoRow :=
  ((sortBy byCreatedDesc (c.photos.filter fun p =>
      (match p.created_at with
       | some s => strLe start_date (sqlDate s) && strLe (sqlDate s) end_date
       | none => false) && !p.is_deleted)).map mkRow)

/-- Model of SQL `LIKE` matching (case-insensitive on ASCII, `%` matches
any run, `_` any single character). -/
def likeMatchAux : List Char → List Char → Bool
  | [], [] => true
  | '%' :: ps, s =>
    likeMatchAux ps s ||
      (match s with
       | [] => false
       | _ :: s2 => likeMatchAux ('%' :: ps) s2)
  | '_' :: ps, _ :: s => likeMatchAux ps s
  | p :: ps, c :: s => p.toLower == c.toLower && likeMatchAux ps s
  | _, _ => false
termination_by ps s => ps.length + s.length

/-- String-level SQL `LIKE`. -/
def likeMatch (pat s : String) : Bool :=
  likeMatchAux pat.data s.data

/-- Model of `PhotoDAO.search_photos_by_filename` (src/db/photo_dao.py
lines 207-240): `filename LIKE ? AND is_deleted = 0`. -/
def Catalog.search_photos_by_filename (c : Catalog) (pat : String) : List PhotoRow :=
  ((sortBy byImportedDesc (c.photos.filter fun p =>
      likeMatch pat p.filename && !p.is_deleted)).map mkRow)

/-- Model of `PhotoDAO.get_photos_by_type` (src/db/photo_dao.py lines
242-275): `type = ? AND is_deleted = 0`. -/
def Catalog.get_photos_by_type (c : Catalog) (photo_type : String) : List PhotoRow :=
  ((sortBy byImportedDesc (c.photos.filter fun p =>
      p.type == photo_type && !p.is_deleted)).map mkRow)

/-- Model of `PhotoDAO.delete_photo` (src/db/photo_dao.py lines 320-348):
soft delete flips `is_deleted` on the matching row, hard delete removes it;
the returned Bool is `rowcount > 0`. -/
def Catalog.delete_photo (c : Catalog) (pid : Nat) (soft_delete : Bool) :
    Catalog × Bool :=
  if soft_delete then
    ({ c with photos := c.photos.map fun p =>
        if p.id == pid then { p with is_deleted := true } else p },
     c.photos.any fun p => p.id == pid)
  else
    ({ c with photos := c.photos.filter fun p => !(p.id == pid) },
     c.photos.any fun p => p.id == pid)

/-- The aggregate values of `PhotoDAO.get_photos_stats` the claims touch
(total count and total size over live rows; the type distribution and the
latest/oldest timestamps are further aggregates over the same live
filter). -/
structure PhotoStats where
  total_count : Nat
  total_size : Nat
deriving Repr, DecidableEq

/-- Model of `PhotoDAO.get_photos_stats` (src/db/photo_dao.py lines
368-424): aggregates over `is_deleted = 0` rows only. -/
def Catalog.get_photos_stats (c : Catalog) : PhotoStats :=
  let live := c.photos.filter fun p => !p.is_deleted
  { total_count := live.length, total_size := (live.map (·.size)).sum }

/-! ### The database manager (src/db/database_manager.py) -/

namespace DatabaseManager

/-- Model of `DatabaseManager.photo_exists_by_hash` (lines 34-45), a direct
wrapper of `Database.photo_exists`. -/
def photo_exists_by_hash (c : Catalog) (md5 : String) (size : Nat) : Bool :=
  c.photo_exists md5 size

/-- Model of `DatabaseManager.add_photo_record` (lines 47-84): build the
row dict - `exif_json = json.dumps(exif_data) if exif_data else None`, so
`None` and the empty mapping both store NULL - and insert it through
`Database.add_photo`.  `now` is the `datetime.now().isoformat()` value. -/
def add_photo_record (c : Catalog) (filename relative_path md5 : String)
    (size : Nat) (created_at : String) (photo_type : String)
    (exif_data : Option (List (String × PyVal))) (now : String) :
    Option Nat × Catalog :=
  c.add_photo
    { filename := filename, path := relative_path, md5 := md5, size := size,
      created_at := some created_at, imported_at := now, type := photo_type,
      exif_json :=
        match exif_data with
        | none => none
        | some m => if m.isEmpty then none else some (json_value (.pyDict m)),
      thumbnail_path := none }

end DatabaseManager

/-! ### The library path planner (src/photo_importer.py lines 420-479) -/

/-- The `yyyy/mm/dd` date directory relative to the library root, from
`strftime('%Y')`, `strftime('%m')`, `strftime('%d')`. -/
def datePath (t : PhotoTime) : String :=
  pad4 t.year ++ "/" ++ pad2 t.month ++ "/" ++ pad2 t.day

/-- Create a directory if absent (one step of `os.makedirs`). -/
def addDir (dirs : List String) (d : String) : List String :=
  if dirs.contains d then dirs else d :: dirs

/-- Model of `os.makedirs(date_dir, exist_ok=True)`: create the root and
every date component that is missing. -/
def makedirsDate (dirs : List String) (root : String) (t : PhotoTime) :
    List String :=
  let d1 := joinPath root (pad4 t.year)
  let d2 := d1 ++ "/" ++ pad2 t.month
  let d3 := d2 ++ "/" ++ pad2 t.day
  addDir (addDir (addDir (addDir dirs root) d1) d2) d3

/-- Model of `generate_target_path` (src/photo_importer.py lines 420-446):
build `target_dir/yyyy/mm/dd`, create it, and return the planned target
path `date_dir/basename(source_file)` together with the directory state. -/
def generate_target_path (dirs : List String) (target_dir source_file : String)
    (t : PhotoTime) : String × List String :=
  let date_dir := joinPath target_dir (datePath t)
  (joinPath date_dir (basename source_file), makedirsDate dirs target_dir t)

/-- The conflict-suffixed candidate `os.path.join(base_dir,
f"{name}_{counter}{ext}")`. -/
def conflictName (base_dir name ext : String) (counter : Nat) : String :=
  joinPath base_dir (name ++ "_" ++ Nat.repr counter ++ ext)

/-- The `while True` search of `copy_file_with_conflict_resolution`,
made total with explicit fuel: try `name_counter`, `name_(counter+1)`, ...
until a free name is found or the fuel runs out. -/
def findFreeName (fsFiles : List String) (base_dir name ext : String) :
    Nat → Nat → Option String
  | _, 0 => none
  | counter, fuel + 1 =>
    let cand := conflictName base_dir name ext counter
    if fsFiles.contains cand then
      findFreeName fsFiles base_dir name ext (counter + 1) fuel
    else
      some cand

/-- Model of `copy_file_with_conflict_resolution` (src/photo_importer.py
lines 449-479) acting on the set of existing library files: if the exact
target is free, copy there; otherwise insert `_N` before the extension with
the 1-based counter and take the first free name.  Returns the final path
and the file set after `shutil.copy2`.  The unbounded loop carries fuel
`|files| + 1`; exhaustion (`none`) cannot occur for the distinct candidate
names arising in practice. -/
def copy_file_with_conflict_resolution (fsFiles : List String)
    (target_path : String) : Option (String × List String) :=
  if fsFiles.contains target_path then
    let fname := basename target_path
    let ne := splitext fname
    let base_dir := dirnameOf target_path
    match findFreeName fsFiles base_dir ne.1 ne.2 1 (fsFiles.length + 1) with
    | none => none
    | some cand => some (cand, cand :: fsFiles)
  else
    some (target_path, target_path :: fsFiles)

/-! ### The import orchestrator (src/photo_importer.py lines 23-142) -/

/-- The signals `PhotoImportWorker` emits, as trace events. -/
inductive Event where
  | progress (current total : Nat) (path : String)
  | photoImported (src dst : String)
  | photoSkipped (path reason : String)
  | errorOccurred (path msg : String)
  | importCompleted (success skipped errors : Nat)
deriving DecidableEq, Repr

/-- The library-side state one import batch acts on: the directory tree and
file set of the library (paths relative to the library root) and the
catalog database. -/
structure LibState where
  dirs : List String
  fsFiles : List String
  catalog : Catalog
deriving Repr

/-- Outcome of one per-file import: the returned outcome string, the
post-state, and the emitted signals. -/
structure StepOut where
  outcome : String
  state : LibState
  events : List Event
deriving Repr

/-- Model of `PhotoImportWorker._import_single_photo` (src/photo_importer.py
lines 80-142), in library-root-relative coordinates (step 6's
`os.path.relpath(final_path, target_dir)` is then the identity):
1-2. fingerprint and duplicate check - a live (md5, size) match returns
"skipped" before any directory creation, copy, metadata extraction or
insert; 3. capture-time resolution; 4. date-directory planning (this
creates directories); 5. copy with collision resolution; 7. EXIF
extraction; 8. catalog insert - `None` from the insert yields outcome
"error" (`数据库写入失败`), a fresh id yields "success". -/
def import_single_photo (now : String) (f : SrcFile) (st : LibState) : StepOut :=
  if st.catalog.photo_exists f.md5 f.size then
    { outcome := "skipped", state := st,
      events := [.photoSkipped f.path "duplicate (md5+size match)"] }
  else
    let photo_time := extract_photo_datetime f
    let dirs2 := makedirsDate st.dirs "" photo_time
    let target_path := joinPath (datePath photo_time) (basename f.path)
    match copy_file_with_conflict_resolution st.fsFiles target_path with
    | none =>
      { outcome := "error", state := { st with dirs := dirs2 },
        events := [.errorOccurred f.path "copy failed"] }
    | some (final_path, fs2) =>
      let relative_path := final_path
      let exif_data := extract_exif_data f.exif
      let filename := basename final_path
      let file_ext := lstripDots (toLowerStr (splitext filename).2)
      let ins := DatabaseManager.add_photo_record st.catalog filename
        relative_path f.md5 f.size (isoformat photo_time) file_ext exif_data now
      let st2 : LibState := { dirs := dirs2, fsFiles := fs2, catalog := ins.2 }
      match ins.1 with
      | some _ =>
        { outcome := "success", state := st2,
          events := [.photoImported f.path final_path] }
      | none =>
        { outcome := "error", state := st2,
          events := [.errorOccurred f.path "database write failed"] }

/-- Result of one batch run: final state, emitted trace, and the three
counters. -/
structure BatchOut where
  state : LibState
  trace : List Event
  success : Nat
  skipped : Nat
  errors : Nat
deriving Repr

/-- The per-file loop of `PhotoImportWorker.run` (src/photo_importer.py
lines 48-73).  `flag i` is the value the `if self.is_cancelled` check reads
at the top of iteration `i`; a `true` read breaks out of the loop before
the progress signal and the per-file work.  Each processed file bumps
exactly one of the three counters. -/
def runAux (now : String) (flag : Nat → Bool) (total : Nat) :
    List SrcFile → Nat → LibState → Nat → Nat → Nat → BatchOut
  | [], _, st, s, k, e => ⟨st, [], s, k, e⟩
  | f :: rest, i, st, s, k, e =>
    if flag i then ⟨st, [], s, k, e⟩
    else
      let step := import_single_photo now f st
      let s2 := if step.outcome == "success" then s + 1 else s
      let k2 := if step.outcome == "success" then k
                else if step.outcome == "skipped" then k + 1 else k
      let e2 := if step.outcome == "success" || step.outcome == "skipped" then e
                else e + 1
      let r := runAux now flag total rest (i + 1) step.state s2 k2 e2
      ⟨r.state, .progress (i + 1) total f.path :: (step.events ++ r.trace),
       r.success, r.skipped, r.errors⟩

/-- Model of `PhotoImportWorker.run`: loop over the candidate list from
index 0 with zeroed counters, then emit `import_completed` exactly once. -/
def PhotoImportWorker.run (now : String) (flag : Nat → Bool)
    (files : List SrcFile) (st : LibState) : BatchOut :=
  let r := runAux now flag files.length files 0 st 0 0 0
  ⟨r.state, r.trace ++ [.importCompleted r.success r.skipped r.errors],
   r.success, r.skipped, r.errors⟩

/-! ### Specification-side descriptions of a batch run -/

/-- Number of files the loop processes when started at absolute index `i`:
the length of the longest prefix whose top-of-iteration cancellation reads
are all false. -/
def stopCount (flag : Nat → Bool) : Nat → List SrcFile → Nat
  | _, [] => 0
  | i, _ :: rest => if flag i then 0 else stopCount flag (i + 1) rest + 1

/-- Sequential composition of per-file imports on the library state. -/
def importFold (now : String) (files : List SrcFile) (st : LibState) : LibState :=
  files.foldl (fun s f => (import_single_photo now f s).state) st

/-- The trace a fully processed file list produces: per file, the progress
signal followed by that file's outcome signal. -/
def specTrace (now : String) (total : Nat) :
    List SrcFile → Nat → LibState → List Event
  | [], _, _ => []
  | f :: rest, i, st =>
    let step := import_single_photo now f st
    Event.progress (i + 1) total f.path ::
      (step.events ++ specTrace now total rest (i + 1) step.state)

/-- The (success, skipped, errors) tallies of a fully processed file
list. -/
def outcomeCounts (now : String) : List SrcFile → LibState → Nat × Nat × Nat
  | [], _ => (0, 0, 0)
  | f :: rest, st =>
    let step := import_single_photo now f st
    let c := outcomeCounts now rest step.state
    ((if step.outcome == "success" then c.1 + 1 else c.1),
     (if step.outcome == "success" then c.2.1
      else if step.outcome == "skipped" then c.2.1 + 1 else c.2.1),
     (if step.outcome == "success" || step.outcome == "skipped" then c.2.2
      else c.2.2 + 1))

/-- Whether an event is a progress signal. -/
def isProgress : Event → Bool
  | .progress _ _ _ => true
  | _ => false

/-- Whether an event is the batch-completion signal. -/
def isCompleted : Event → Bool
  | .importCompleted _ _ _ => true
  | _ => false

/-- Every catalog row's file is present in the library file set ("no
cataloged file without a completed copy"). -/
def consistentB (st : LibState) : Bool :=
  st.catalog.photos.all fun p => st.fsFiles.contains p.path

/-- Count of live rows carrying a given fingerprint. -/
def countLiveByHash (c : Catalog) (md5 : String) (size : Nat) : Nat :=
  (c.photos.filter fun p => p.md5 == md5 && p.size == size && !p.is_deleted).length

/-! ### Shared lemmas about the batch loop -/

theorem stopCount_le (flag : Nat → Bool) :
    ∀ (files : List SrcFile) (i : Nat), stopCount flag i files ≤ files.length := by
  intro files
  induction files with
  | nil => intro i; simp [stopCount]
  | cons f rest ih =>
    intro i
    by_cases h : flag i
    · simp [stopCount, h]
    · simp only [stopCount, h, if_false, List.length_cons]
      exact Nat.succ_le_succ (ih (i + 1))

theorem stopCount_flag_false (flag : Nat → Bool) :
    ∀ (files : List SrcFile) (i j : Nat), j < stopCount flag i files →
      flag (i + j) = false := by
  intro files
  induction files with
  | nil => intro i j h; simp [stopCount] at h
  | cons f rest ih =>
    intro i j h
    by_cases hf : flag i
    · simp [stopCount, hf] at h
    · simp only [stopCount] at h
      rw [if_neg (by simpa using hf)] at h
      cases j with
      | zero => simpa using hf
      | succ j =>
        have h2 := ih (i + 1) j (by omega)
        have h3 : flag (i + 1 + j) = false := h2
        simpa [Nat.add_comm, Nat.add_assoc, Nat.add_left_comm] using h3

theorem stopCount_flag_true (flag : Nat → Bool) :
    ∀ (files : List SrcFile) (i : Nat),
      stopCount flag i files < files.length →
      flag (i + stopCount flag i files) = true := by
  intro files
  induction files with
  | nil => intro i h; simp at h
  | cons f rest ih =>
    intro i h
    by_cases hf : flag i
    · simp [stopCount, hf]
    · simp only [stopCount, List.length_cons] at h ⊢
      rw [if_neg (by simpa using hf)] at h ⊢
      have h2 := ih (i + 1) (by omega)
      simpa [Nat.add_comm, Nat.add_assoc, Nat.add_left_comm] using h2

theorem runAux_eq (now : String) (flag : Nat → Bool) (total : Nat) :
    ∀ (files : List SrcFile) (i : Nat) (st : LibState) (s k e : Nat),
      runAux now flag total files i st s k e =
        { state := importFold now (files.take (stopCount flag i files)) st,
          trace := specTrace now total (files.take (stopCount flag i files)) i st,
          success := s + (outcomeCounts now (files.take (stopCount flag i files)) st).1,
          skipped := k + (outcomeCounts now (files.take (stopCount flag i files)) st).2.1,
          errors := e + (outcomeCounts now (files.take (stopCount flag i files)) st).2.2 } := by
  intro files
  induction files with
  | nil =>
    intro i st s k e
    simp [runAux, stopCount, importFold, specTrace, outcomeCounts]
  | cons f rest ih =>
    intro i st s k e
    by_cases hf : flag i
    · simp [runAux, stopCount, hf, importFold, specTrace, outcomeCounts]
    · simp only [runAux, stopCount, hf, if_false, Bool.false_eq_true,
        List.take_succ_cons]
      rw [ih]
      simp only [importFold, List.foldl_cons, specTrace, outcomeCounts]
      by_cases hs : (import_single_photo now f st).outcome == "success"
      · simp [hs]; omega
      · by_cases hk : (import_single_photo now f st).outcome == "skipped"
        · simp [hs, hk]; omega
        · simp [hs, hk]; omega

theorem outcomeCounts_sum (now : String) :
    ∀ (files : List SrcFile) (st : LibState),
      (outcomeCounts now files st).1 + (outcomeCounts now files st).2.1 +
        (outcomeCounts now files st).2.2 = files.length := by
  intro files
  induction files with
  | nil => intro st; simp [outcomeCounts]
  | cons f rest ih =>
    intro st
    simp only [outcomeCounts, List.length_cons]
    have := ih (import_single_photo now f st).state
    by_cases hs : (import_single_photo now f st).outcome == "success"
    · simp [hs]; omega
    · by_cases hk : (import_single_photo now f st).outcome == "skipped"
      · simp [hs, hk]; omega
      · simp [hs, hk]; omega

theorem contains_iff_mem (l : List String) (a : String) :
    l.contains a = true ↔ a ∈ l := by
  simp [List.contains, List.elem_iff]

theorem findFreeName_some (fsFiles : List String) (base_dir name ext : String) :
    ∀ (fuel counter : Nat) (p : String),
      findFreeName fsFiles base_dir name ext counter fuel = some p →
      fsFiles.contains p = false ∧
        ∃ j, p = conflictName base_dir name ext (counter + j) ∧
          ∀ i, i < j →
            fsFiles.contains (conflictName base_dir name ext (counter + i)) = true := by
  intro fuel
  induction fuel with
  | zero => intro c p h; simp [findFreeName] at h
  | succ fuel ih =>
    intro c p h
    simp only [findFreeName] at h
    by_cases hc : fsFiles.contains (conflictName base_dir name ext c) = true
    · rw [if_pos hc] at h
      obtain ⟨hfree, j, hp, hall⟩ := ih (c + 1) p h
      refine ⟨hfree, j + 1, ?_, ?_⟩
      · have heq : c + 1 + j = c + (j + 1) := by omega
        rw [heq] at hp; exact hp
      · intro i hi
        cases i with
        | zero => simpa using hc
        | succ i =>
          have heq : c + (i + 1) = c + 1 + i := by omega
          rw [heq]; exact hall i (by omega)
    · rw [if_neg hc] at h
      have hp : p = conflictName base_dir name ext c := by
        have := h
        simp only [Option.some.injEq] at this
        exact this.symm
      subst hp
      refine ⟨by simpa using hc, 0, by simp, by omega⟩

theorem copy_some (fsFiles : List String) (target p : String) (fs2 : List String)
    (h : copy_file_with_conflict_resolution fsFiles target = some (p, fs2)) :
    fsFiles.contains p = false ∧ fs2 = p :: fsFiles := by
  simp only [copy_file_with_conflict_resolution] at h
  by_cases hc : fsFiles.contains target = true
  · rw [if_pos hc] at h
    cases hfind : findFreeName fsFiles (dirnameOf target)
        (splitext (basename target)).1 (splitext (basename target)).2 1
        (fsFiles.length + 1) with
    | none => rw [hfind] at h; simp at h
    | some cand =>
      rw [hfind] at h
      obtain ⟨hfree, _⟩ := findFreeName_some fsFiles (dirnameOf target)
        (splitext (basename target)).1 (splitext (basename target)).2
        (fsFiles.length + 1) 1 cand hfind
      simp only [Option.some.injEq, Prod.mk.injEq] at h
      exact ⟨h.1 ▸ hfree, h.2.symm.trans (by rw [h.1])⟩
  · rw [if_neg hc] at h
    simp only [Option.some.injEq, Prod.mk.injEq] at h
    constructor
    · rw [← h.1]; simpa using hc
    · rw [← h.2, h.1]

/-- Destination path carried by a `photo_imported` signal, if any. -/
def dstOf : Event → Option String
  | .photoImported _ dst => some dst
  | _ => none

theorem import_events_shape (now : String) (f : SrcFile) (st : LibState) :
    ∃ ev, (import_single_photo now f st).events = [ev] ∧
      isProgress ev = false ∧ isCompleted ev = false := by
  simp only [import_single_photo]
  split
  · exact ⟨_, rfl, rfl, rfl⟩
  · split
    · exact ⟨_, rfl, rfl, rfl⟩
    · split
      · exact ⟨_, rfl, rfl, rfl⟩
      · exact ⟨_, rfl, rfl, rfl⟩

theorem import_fs_mono (now : String) (f : SrcFile) (st : LibState) :
    ∀ x ∈ st.fsFiles, x ∈ (import_single_photo now f st).state.fsFiles := by
  intro x hx
  simp only [import_single_photo]
  split
  · exact hx
  · split
    · exact hx
    · rename_i final fs2 hcopy
      have h2 := copy_some _ _ _ _ hcopy
      split
      · simp only [h2.2]; exact List.mem_cons_of_mem _ hx
      · simp only [h2.2]; exact List.mem_cons_of_mem _ hx

theorem import_dst_cases (now : String) (f : SrcFile) (st : LibState) :
    (import_single_photo now f st).events.filterMap dstOf = [] ∨
      ∃ final, (import_single_photo now f st).events.filterMap dstOf = [final] ∧
        st.fsFiles.contains final = false ∧
        final ∈ (import_single_photo now f st).state.fsFiles := by
  simp only [import_single_photo]
  split
  · left; rfl
  · split
    · left; rfl
    · rename_i final fs2 hcopy
      have h2 := copy_some _ _ _ _ hcopy
      split
      · right
        refine ⟨final, rfl, h2.1, ?_⟩
        simp only [h2.2]
        exact List.mem_cons_self _ _
      · left; rfl


theorem import_consistentB (now : String) (f : SrcFile) (st : LibState)
    (h : consistentB st = true) :
    consistentB (import_single_photo now f st).state = true := by
  simp only [import_single_photo]
  split
  · exact h
  · split
    · exact h
    · rename_i final fs2 hcopy
      have h2 := copy_some _ _ _ _ hcopy
      have hmono : ∀ p : PhotoRecord, st.fsFiles.contains p.path = true →
          fs2.contains p.path = true := by
        intro p hp
        rw [contains_iff_mem] at hp ⊢
        simp only [h2.2]
        exact List.mem_cons_of_mem _ hp
      have hold : ∀ p ∈ st.catalog.photos, fs2.contains p.path = true := by
        intro p hp
        simp only [consistentB, List.all_eq_true] at h
        exact hmono p (h p hp)
      have hgoal : ∀ cat2 : Catalog,
          cat2 = (DatabaseManager.add_photo_record st.catalog (basename final)
            final f.md5 f.size (isoformat (extract_photo_datetime f))
            (lstripDots (toLowerStr (splitext (basename final)).2))
            (extract_exif_data f.exif) now).2 →
          consistentB { dirs := makedirsDate st.dirs "" (extract_photo_datetime f),
                        fsFiles := fs2, catalog := cat2 } = true := by
        intro cat2 hcat
        simp only [DatabaseManager.add_photo_record, Catalog.add_photo] at hcat
        by_cases hviol : st.catalog.violatesUnique
            { filename := basename final, path := final, md5 := f.md5,
              size := f.size,
              created_at := some (isoformat (extract_photo_datetime f)),
              imported_at := now,
              type := lstripDots (toLowerStr (splitext (basename final)).2),
              exif_json :=
                match extract_exif_data f.exif with
                | none => none
                | some m =>
                  if m.isEmpty then none else some (json_value (.pyDict m)),
              thumbnail_path := none } = true
        · rw [if_pos hviol] at hcat
          subst hcat
          simp only [consistentB, List.all_eq_true]
          exact hold
        · rw [if_neg hviol] at hcat
          subst hcat
          simp only [consistentB, List.all_eq_true]
          intro p hp
          simp only [List.mem_append, List.mem_singleton] at hp
          cases hp with
          | inl hp => exact hold p hp
          | inr hp =>
            subst hp
            rw [contains_iff_mem]
            simp [h2.2]
      split
      · exact hgoal _ rfl
      · exact hgoal _ rfl

theorem specTrace_filter_progress (now : String) (total : Nat) :
    ∀ (files : List SrcFile) (i : Nat) (st : LibState),
      (specTrace now total files i st).filter isProgress =
        (List.enumFrom i files).map
          (fun q => Event.progress (q.1 + 1) total q.2.path) := by
  intro files
  induction files with
  | nil => intro i st; simp [specTrace]
  | cons f rest ih =>
    intro i st
    obtain ⟨ev, hev, hprog, _⟩ := import_events_shape now f st
    have hf : List.filter isProgress [ev] = [] := by
      simp [List.filter_cons, hprog]
    simp only [specTrace, List.enumFrom, List.map_cons, List.filter_cons,
      List.filter_append, hev, hf]
    rw [ih]
    simp [isProgress]

theorem specTrace_filter_completed (now : String) (total : Nat) :
    ∀ (files : List SrcFile) (i : Nat) (st : LibState),
      (specTrace now total files i st).filter isCompleted = [] := by
  intro files
  induction files with
  | nil => intro i st; simp [specTrace]
  | cons f rest ih =>
    intro i st
    obtain ⟨ev, hev, _, hcomp⟩ := import_events_shape now f st
    have hf : List.filter isCompleted [ev] = [] := by
      simp [List.filter_cons, hcomp]
    simp only [specTrace, List.filter_cons, List.filter_append, hev, hf]
    rw [ih]
    simp [isCompleted]

theorem specTrace_dst_nodup (now : String) (total : Nat) :
    ∀ (files : List SrcFile) (i : Nat) (st : LibState),
      ((specTrace now total files i st).filterMap dstOf).Nodup ∧
        ∀ d ∈ (specTrace now total files i st).filterMap dstOf,
          d ∉ st.fsFiles := by
  intro files
  induction files with
  | nil => intro i st; simp [specTrace]
  | cons f rest ih =>
    intro i st
    have hmono := import_fs_mono now f st
    have ihr := ih (i + 1) (import_single_photo now f st).state
    simp only [specTrace, List.filterMap_cons, List.filterMap_append]
    have hdst : dstOf (Event.progress (i + 1) total f.path) = none := rfl
    rw [hdst]
    cases import_dst_cases now f st with
    | inl hA =>
      rw [hA]
      simp only [List.nil_append]
      refine ⟨ihr.1, ?_⟩
      intro d hd hmem
      exact ihr.2 d hd (hmono d hmem)
    | inr hB =>
      obtain ⟨final, hfm, hfree, hin⟩ := hB
      rw [hfm]
      constructor
      · simp only [List.cons_append, List.nil_append, List.nodup_cons]
        constructor
        · intro hcon
          exact ihr.2 final hcon hin
        · exact ihr.1
      · intro d hd
        simp only [List.cons_append, List.nil_append, List.mem_cons] at hd
        cases hd with
        | inl hd =>
          subst hd
          intro hmem
          rw [← contains_iff_mem] at hmem
          rw [hfree] at hmem
          exact Bool.false_ne_true hmem
        | inr hd =>
          intro hmem
          exact ihr.2 d hd (hmono d hmem)

/-- The `photo_data` dict `_import_single_photo` hands to the insert for
source file `f` once the copy has resolved to `final`. -/
def importData (now : String) (f : SrcFile) (final : String) : PhotoData :=
  { filename := basename final, path := final, md5 := f.md5, size := f.size,
    created_at := some (isoformat (extract_photo_datetime f)),
    imported_at := now,
    type := lstripDots (toLowerStr (splitext (basename final)).2),
    exif_json :=
      match extract_exif_data f.exif with
      | none => none
      | some m => if m.isEmpty then none else some (json_value (.pyDict m)),
    thumbnail_path := none }

/-- The row `Database.add_photo` appends for the data `d`. -/
def recordOf (c : Catalog) (d : PhotoData) : PhotoRecord :=
  { id := c.nextId, filename := d.filename, path := d.path, md5 := d.md5,
    size := d.size, created_at := d.created_at, imported_at := d.imported_at,
    type := d.type, exif_json := d.exif_json,
    thumbnail_path := d.thumbnail_path, is_deleted := false }

/-- Complete case analysis of one per-file import: duplicate skip, copy
failure, successful insert, or insert rejection. -/
theorem import_struct (now : String) (f : SrcFile) (st : LibState) :
    (st.catalog.photo_exists f.md5 f.size = true ∧
      import_single_photo now f st =
        { outcome := "skipped", state := st,
          events := [.photoSkipped f.path "duplicate (md5+size match)"] }) ∨
    (st.catalog.photo_exists f.md5 f.size = false ∧
      copy_file_with_conflict_resolution st.fsFiles
          (joinPath (datePath (extract_photo_datetime f)) (basename f.path)) =
        none ∧
      import_single_photo now f st =
        { outcome := "error",
          state := { st with dirs := makedirsDate st.dirs "" (extract_photo_datetime f) },
          events := [.errorOccurred f.path "copy failed"] }) ∨
    (∃ final fs2,
      st.catalog.photo_exists f.md5 f.size = false ∧
      copy_file_with_conflict_resolution st.fsFiles
          (joinPath (datePath (extract_photo_datetime f)) (basename f.path)) =
        some (final, fs2) ∧
      ((st.catalog.violatesUnique (importData now f final) = false ∧
        import_single_photo now f st =
          { outcome := "success",
            state := { dirs := makedirsDate st.dirs "" (extract_photo_datetime f),
                       fsFiles := fs2,
                       catalog := { photos := st.catalog.photos ++
                                      [recordOf st.catalog (importData now f final)],
                                    nextId := st.catalog.nextId + 1 } },
            events := [.photoImported f.path final] }) ∨
       (st.catalog.violatesUnique (importData now f final) = true ∧
        import_single_photo now f st =
          { outcome := "error",
            state := { dirs := makedirsDate st.dirs "" (extract_photo_datetime f),
                       fsFiles := fs2, catalog := st.catalog },
            events := [.errorOccurred f.path "database write failed"] }))) := by
  by_cases hdup : st.catalog.photo_exists f.md5 f.size = true
  · left
    refine ⟨hdup, ?_⟩
    simp only [import_single_photo]
    rw [if_pos hdup]
  · have hdup2 : st.catalog.photo_exists f.md5 f.size = false := by
      simpa using hdup
    cases hcopy : copy_file_with_conflict_resolution st.fsFiles
        (joinPath (datePath (extract_photo_datetime f)) (basename f.path)) with
    | none =>
      right; left
      refine ⟨hdup2, rfl, ?_⟩
      simp only [import_single_photo]
      rw [if_neg hdup, hcopy]
    | some pr =>
      obtain ⟨final, fs2⟩ := pr
      right; right
      refine ⟨final, fs2, hdup2, rfl, ?_⟩
      by_cases hviol : st.catalog.violatesUnique (importData now f final) = true
      · right
        refine ⟨hviol, ?_⟩
        simp only [importData] at hviol
        simp only [import_single_photo]
        rw [if_neg hdup, hcopy]
        simp only [DatabaseManager.add_photo_record, Catalog.add_photo]
        rw [if_pos hviol]
      · left
        have hviol2 : st.catalog.violatesUnique (importData now f final) = false := by
          simpa using hviol
        refine ⟨hviol2, ?_⟩
        simp only [importData] at hviol
        simp only [import_single_photo]
        rw [if_neg hdup, hcopy]
        simp only [DatabaseManager.add_photo_record, Catalog.add_photo]
        rw [if_neg hviol]
        simp only [recordOf, importData]

theorem findTimeLoop_eq (tags : List (String × String)) :
    ∀ names : List String,
      findTimeLoop tags names =
        names.findSome? fun n => (tags.lookup n).bind parseExifDatetime := by
  intro names
  induction names with
  | nil => rfl
  | cons n rest ih =>
    simp only [findTimeLoop, List.findSome?_cons]
    cases h : tags.lookup n with
    | none => simpa [h] using ih
    | some s =>
      cases hp : parseExifDatetime s with
      | none => simpa [h, hp] using ih
      | some t => simp [h, hp]

/-- C3: for every candidate file, the capture-time resolver returns the
timestamp of the first embedded tag - trying the original-capture tag
`EXIF DateTimeOriginal`, the digitized tag `EXIF CreateDate`, then the
generic modification tags `EXIF DateTime` / `Image DateTime`, in that
priority order - that parses against the canonical embedded-date format
`%Y:%m:%d %H:%M:%S`; when no such tag is present or none parses, or when
reading the file raises, it returns the file's filesystem last-modified
timestamp.  It is a total function: some timestamp always comes back. -/
theorem C3_capture_time_priority_and_fallback (f : SrcFile) :
    extract_photo_datetime f =
      (if f.exifReadable then
        (exifTimeTags.findSome? fun n =>
          (f.tags.lookup n).bind parseExifDatetime).getD f.mtime
      else f.mtime) := by
  simp only [extract_photo_datetime, findTimeLoop_eq]
  by_cases h : f.exifReadable = true
  · rw [if_pos h, if_pos h]
    cases hfs : exifTimeTags.findSome? fun n =>
        (f.tags.lookup n).bind parseExifDatetime with
    | none => simp
    | some t => simp
  · rw [if_neg h, if_neg h]

theorem mem_addDir_self (l : List String) (d : String) : d ∈ addDir l d := by
  unfold addDir
  split
  · rename_i h
    exact (contains_iff_mem l d).mp h
  · exact List.mem_cons_self _ _

theorem mem_addDir_of_mem (l : List String) (d x : String) (h : x ∈ l) :
    x ∈ addDir l d := by
  unfold addDir
  split
  · exact h
  · exact List.mem_cons_of_mem _ h

theorem addDir_of_mem (l : List String) (d : String) (h : d ∈ l) :
    addDir l d = l := by
  unfold addDir
  rw [if_pos ((contains_iff_mem l d).mpr h)]

theorem makedirsDate_idem (dirs : List String) (root : String) (t : PhotoTime) :
    makedirsDate (makedirsDate dirs root t) root t =
      makedirsDate dirs root t := by
  have h0 : root ∈ makedirsDate dirs root t := by
    unfold makedirsDate
    exact mem_addDir_of_mem _ _ _
      (mem_addDir_of_mem _ _ _ (mem_addDir_of_mem _ _ _ (mem_addDir_self _ _)))
  have h1 : joinPath root (pad4 t.year) ∈ makedirsDate dirs root t := by
    unfold makedirsDate
    exact mem_addDir_of_mem _ _ _
      (mem_addDir_of_mem _ _ _ (mem_addDir_self _ _))
  have h2 : joinPath root (pad4 t.year) ++ "/" ++ pad2 t.month ∈
      makedirsDate dirs root t := by
    unfold makedirsDate
    exact mem_addDir_of_mem _ _ _ (mem_addDir_self _ _)
  have h3 : joinPath root (pad4 t.year) ++ "/" ++ pad2 t.month ++ "/" ++
      pad2 t.day ∈ makedirsDate dirs root t := by
    unfold makedirsDate
    exact mem_addDir_self _ _
  show addDir (addDir (addDir (addDir (makedirsDate dirs root t) root)
      (joinPath root (pad4 t.year)))
      (joinPath root (pad4 t.year) ++ "/" ++ pad2 t.month))
      (joinPath root (pad4 t.year) ++ "/" ++ pad2 t.month ++ "/" ++
        pad2 t.day) =
    makedirsDate dirs root t
  rw [addDir_of_mem _ _ h0, addDir_of_mem _ _ h1, addDir_of_mem _ _ h2,
    addDir_of_mem _ _ h3]

/-- C4: for a non-empty library root and any capture timestamp (with the
date fields in `strftime`'s zero-padded range), the planner's target
directory is exactly `root/<4-digit year>/<2-digit month>/<2-digit day>`
directly under the root, the planned file path sits directly inside it, the
directory (with its ancestors) is created, and creating it is idempotent. -/
theorem C4_date_directory_planner (dirs : List String)
    (target_dir source_file : String) (t : PhotoTime)
    (hroot : target_dir ≠ "") (hy : t.year ≤ 9999) (hm : t.month ≤ 99)
    (hd : t.day ≤ 99) :
    (generate_target_path dirs target_dir source_file t).1 =
        target_dir ++ "/" ++ pad4 t.year ++ "/" ++ pad2 t.month ++ "/" ++
          pad2 t.day ++ "/" ++ basename source_file ∧
      (pad4 t.year).length = 4 ∧ (pad2 t.month).length = 2 ∧
      (pad2 t.day).length = 2 ∧
      target_dir ++ "/" ++ pad4 t.year ++ "/" ++ pad2 t.month ++ "/" ++
          pad2 t.day ∈ (generate_target_path dirs target_dir source_file t).2 ∧
      (generate_target_path (generate_target_path dirs target_dir source_file t).2
          target_dir source_file t).2 =
        (generate_target_path dirs target_dir source_file t).2 := by
  have hjr : joinPath target_dir (datePath t) =
      target_dir ++ "/" ++ pad4 t.year ++ "/" ++ pad2 t.month ++ "/" ++
        pad2 t.day := by
    rw [joinPath, if_neg hroot, datePath]
    simp [String.append_assoc]
  have hdd : target_dir ++ "/" ++ pad4 t.year ++ "/" ++ pad2 t.month ++ "/" ++
      pad2 t.day ≠ "" := by
    intro h
    have hlen := congrArg String.length h
    simp only [String.length_append] at hlen
    have hslash : ("/" : String).length = 1 := rfl
    rw [hslash] at hlen
    simp at hlen
  refine ⟨?_, ?_, ?_, ?_, ?_, ?_⟩
  · simp only [generate_target_path]
    rw [hjr, joinPath, if_neg hdd]
  · rw [pad4, if_pos (by omega : t.year < 10000)]; rfl
  · rw [pad2, if_pos (by omega : t.month < 100)]; rfl
  · rw [pad2, if_pos (by omega : t.day < 100)]; rfl
  · simp only [generate_target_path, makedirsDate]
    have : joinPath target_dir (pad4 t.year) ++ "/" ++ pad2 t.month ++ "/" ++
        pad2 t.day = target_dir ++ "/" ++ pad4 t.year ++ "/" ++ pad2 t.month ++
        "/" ++ pad2 t.day := by
      rw [joinPath, if_neg hroot]
    rw [← this]
    exact mem_addDir_self _ _
  · simp only [generate_target_path]
    exact makedirsDate_idem dirs target_dir t

/-- C4 witness: concrete instantiation at root `lib` and the timestamp
2024-03-05 14:30:00. -/
theorem C4_date_directory_planner_witness :
    (("lib" : String) ≠ "" ∧ (2024 : Nat) ≤ 9999 ∧ (3 : Nat) ≤ 99 ∧
      (5 : Nat) ≤ 99) ∧
    (generate_target_path [] "lib" "src/a.jpg" ⟨2024, 3, 5, 14, 30, 0⟩).1 =
        "lib" ++ "/" ++ pad4 2024 ++ "/" ++ pad2 3 ++ "/" ++ pad2 5 ++ "/" ++
          basename "src/a.jpg" ∧
      (pad4 2024).length = 4 ∧ (pad2 3).length = 2 ∧ (pad2 5).length = 2 ∧
      "lib" ++ "/" ++ pad4 2024 ++ "/" ++ pad2 3 ++ "/" ++ pad2 5 ∈
        (generate_target_path [] "lib" "src/a.jpg" ⟨2024, 3, 5, 14, 30, 0⟩).2 ∧
      (generate_target_path
          (generate_target_path [] "lib" "src/a.jpg" ⟨2024, 3, 5, 14, 30, 0⟩).2
          "lib" "src/a.jpg" ⟨2024, 3, 5, 14, 30, 0⟩).2 =
        (generate_target_path [] "lib" "src/a.jpg" ⟨2024, 3, 5, 14, 30, 0⟩).2 :=
  ⟨⟨by decide, by decide, by decide, by decide⟩,
   C4_date_directory_planner [] "lib" "src/a.jpg" ⟨2024, 3, 5, 14, 30, 0⟩
     (by decide) (by decide) (by decide) (by decide)⟩

/-- C5: collision resolution is deterministic: a free target is used as is;
an occupied target resolves to the original name with `_N` inserted before
the extension, `N` the least 1-based counter whose name is free (every
smaller counter being occupied); and within one sequential batch no two
files are ever assigned the same resolved path (the destinations of the
`photo_imported` signals of any batch trace are pairwise distinct). -/
theorem C5_conflict_suffix_deterministic :
    (∀ (fsFiles : List String) (target : String),
        fsFiles.contains target = false →
        copy_file_with_conflict_resolution fsFiles target =
          some (target, target :: fsFiles)) ∧
    (∀ (fsFiles : List String) (target p : String) (fs2 : List String),
        fsFiles.contains target = true →
        copy_file_with_conflict_resolution fsFiles target = some (p, fs2) →
        ∃ N, 1 ≤ N ∧
          p = conflictName (dirnameOf target) (splitext (basename target)).1
                (splitext (basename target)).2 N ∧
          fsFiles.contains p = false ∧ fs2 = p :: fsFiles ∧
          ∀ i, 1 ≤ i → i < N →
            fsFiles.contains (conflictName (dirnameOf target)
              (splitext (basename target)).1 (splitext (basename target)).2
              i) = true) ∧
    (∀ (now : String) (total : Nat) (files : List SrcFile) (i : Nat)
        (st : LibState),
        ((specTrace now total files i st).filterMap dstOf).Nodup) := by
  refine ⟨?_, ?_, ?_⟩
  · intro fsFiles target h
    simp only [copy_file_with_conflict_resolution]
    have hne : ¬(fsFiles.contains target = true) := by
      intro hcon
      rw [hcon] at h
      exact Bool.false_ne_true h.symm
    rw [if_neg hne]
  · intro fsFiles target p fs2 hocc hc
    have hfs2 := copy_some fsFiles target p fs2 hc
    simp only [copy_file_with_conflict_resolution] at hc
    rw [if_pos hocc] at hc
    cases hfind : findFreeName fsFiles (dirnameOf target)
        (splitext (basename target)).1 (splitext (basename target)).2 1
        (fsFiles.length + 1) with
    | none => rw [hfind] at hc; simp at hc
    | some cand =>
      rw [hfind] at hc
      simp only [Option.some.injEq, Prod.mk.injEq] at hc
      obtain ⟨hfree, j, hcand, hall⟩ := findFreeName_some fsFiles
        (dirnameOf target) (splitext (basename target)).1
        (splitext (basename target)).2 (fsFiles.length + 1) 1 cand hfind
      refine ⟨1 + j, by omega, ?_, hfs2.1, hfs2.2, ?_⟩
      · exact hc.1 ▸ hcand
      · intro i h1 hiN
        have hdec : i - 1 < j := by omega
        have := hall (i - 1) hdec
        have heq : 1 + (i - 1) = i := by omega
        rw [heq] at this
        exact this
  · intro now total files i st
    exact (specTrace_dst_nodup now total files i st).1

/-- C5 witness: with `d/a.jpg` occupied, importing another `a.jpg` into `d`
resolves to `d/a_1.jpg`; the suffix search succeeded at the first
counter. -/
theorem C5_conflict_suffix_deterministic_witness :
    (["d/a.jpg"].contains "d/a.jpg" = true ∧
      copy_file_with_conflict_resolution ["d/a.jpg"] "d/a.jpg" =
        some ("d/a_1.jpg", ["d/a_1.jpg", "d/a.jpg"])) ∧
    ∃ N, 1 ≤ N ∧
      "d/a_1.jpg" = conflictName (dirnameOf "d/a.jpg")
            (splitext (basename "d/a.jpg")).1 (splitext (basename "d/a.jpg")).2
            N ∧
      (["d/a.jpg"] : List String).contains "d/a_1.jpg" = false ∧
      (["d/a_1.jpg", "d/a.jpg"] : List String) = "d/a_1.jpg" :: ["d/a.jpg"] ∧
      ∀ i, 1 ≤ i → i < N →
        (["d/a.jpg"] : List String).contains (conflictName (dirnameOf "d/a.jpg")
          (splitext (basename "d/a.jpg")).1 (splitext (basename "d/a.jpg")).2
          i) = true :=
  ⟨⟨by decide, by decide⟩,
   C5_conflict_suffix_deterministic.2.1 ["d/a.jpg"] "d/a.jpg" "d/a_1.jpg"
     ["d/a_1.jpg", "d/a.jpg"] (by decide) (by decide)⟩

/-- C1: a candidate whose (md5, size) fingerprint matches a live catalog
row at the start of its import is skipped with the state (catalog, files
and directories) fully unchanged - the duplicate check short-circuits
before directory creation, copy, metadata extraction and insert; and after
a successful import, importing a byte-identical file (same fingerprint)
under any other name is skipped, leaves the state unchanged, and exactly
one live row with that fingerprint exists. -/
theorem C1_duplicate_short_circuit :
    (∀ (now : String) (f : SrcFile) (st : LibState),
        st.catalog.photo_exists f.md5 f.size = true →
        import_single_photo now f st =
          { outcome := "skipped", state := st,
            events := [.photoSkipped f.path "duplicate (md5+size match)"] }) ∧
    (∀ (now now2 : String) (f1 f2 : SrcFile) (st : LibState),
        f2.md5 = f1.md5 → f2.size = f1.size →
        (import_single_photo now f1 st).outcome = "success" →
        (import_single_photo now2 f2
            (import_single_photo now f1 st).state).outcome = "skipped" ∧
          (import_single_photo now2 f2
              (import_single_photo now f1 st).state).state =
            (import_single_photo now f1 st).state ∧
          countLiveByHash (import_single_photo now f1 st).state.catalog
            f1.md5 f1.size = 1) := by
  have skipCase : ∀ (now : String) (f : SrcFile) (st : LibState),
      st.catalog.photo_exists f.md5 f.size = true →
      import_single_photo now f st =
        { outcome := "skipped", state := st,
          events := [.photoSkipped f.path "duplicate (md5+size match)"] } := by
    intro now f st h
    rcases import_struct now f st with ⟨_, heq⟩ | ⟨hfalse, _, _⟩ |
      ⟨final, fs2, hfalse, _, _⟩
    · exact heq
    · rw [h] at hfalse; exact Bool.noConfusion hfalse
    · rw [h] at hfalse; exact Bool.noConfusion hfalse
  refine ⟨skipCase, ?_⟩
  intro now now2 f1 f2 st hm hs hsucc
  rcases import_struct now f1 st with ⟨_, heq⟩ | ⟨_, _, heq⟩ |
    ⟨final, fs2, hdup, hcopy, hrest⟩
  · rw [heq] at hsucc
    have hs2 : ("skipped" : String) = "success" := hsucc
    exact absurd hs2 (by decide)
  · rw [heq] at hsucc
    have hs2 : ("error" : String) = "success" := hsucc
    exact absurd hs2 (by decide)
  rcases hrest with ⟨hviol, heq⟩ | ⟨_, heq⟩
  swap
  · rw [heq] at hsucc
    have hs2 : ("error" : String) = "success" := hsucc
    exact absurd hs2 (by decide)
  have hnomatch : ∀ p ∈ st.catalog.photos,
      (p.md5 == f1.md5 && p.size == f1.size) = false := by
    intro p hp
    simp only [Catalog.violatesUnique, importData, List.any_eq_true,
      Bool.or_eq_true, not_exists] at hviol
    rw [List.any_eq_false] at hviol
    have := hviol p hp
    simp only [Bool.or_eq_true, not_or] at this
    cases hb : (p.md5 == f1.md5 && p.size == f1.size)
    · rfl
    · exact absurd (Or.inl hb) (by tauto)
  have hex : (import_single_photo now f1 st).state.catalog.photo_exists
      f2.md5 f2.size = true := by
    rw [heq]
    simp only [Catalog.photo_exists, List.any_append, List.any_cons,
      List.any_nil, recordOf, importData, Bool.or_eq_true]
    right; left
    rw [hm, hs]
    simp
  refine ⟨?_, ?_, ?_⟩
  · rw [skipCase now2 f2 _ hex]
  · rw [skipCase now2 f2 _ hex]
  · rw [heq]
    simp only [countLiveByHash, List.filter_append]
    have hfn : (st.catalog.photos.filter fun p =>
        p.md5 == f1.md5 && p.size == f1.size && !p.is_deleted) = [] := by
      rw [List.filter_eq_nil_iff]
      intro p hp
      have := hnomatch p hp
      simp only [Bool.and_eq_true, Bool.not_eq_true]
      intro hcon
      have hb : (p.md5 == f1.md5 && p.size == f1.size) = true := by
        rw [hcon.1.1, hcon.1.2]
        rfl
      rw [hb] at this
      exact Bool.noConfusion this
    rw [hfn]
    simp [recordOf, importData]

/-- A live catalog row used by the C1 witness. -/
def c1Record : PhotoRecord :=
  { id := 1, filename := "a.jpg", path := "2024/03/05/a.jpg", md5 := "aaa",
    size := 5, created_at := some "2024-03-05T14:30:00", imported_at := "T0",
    type := "jpg", exif_json := none, thumbnail_path := none,
    is_deleted := false }

/-- Library state with one live imported photo, for the C1 witness. -/
def c1State : LibState :=
  { dirs := ["2024", "2024/03", "2024/03/05"],
    fsFiles := ["2024/03/05/a.jpg"],
    catalog := { photos := [c1Record], nextId := 2 } }

/-- A byte-identical copy of the C1 photo under another name. -/
def c1File : SrcFile :=
  { path := "elsewhere/copy.jpg", md5 := "aaa", size := 5,
    exifReadable := true, tags := [], exif := none,
    mtime := ⟨2024, 3, 5, 0, 0, 0⟩ }

/-- C1 witness: the live-duplicate check fires on the concrete state and
the import is skipped with the state unchanged. -/
theorem C1_duplicate_short_circuit_witness :
    c1State.catalog.photo_exists c1File.md5 c1File.size = true ∧
    import_single_photo "T1" c1File c1State =
      { outcome := "skipped", state := c1State,
        events := [.photoSkipped c1File.path "duplicate (md5+size match)"] } :=
  ⟨rfl, C1_duplicate_short_circuit.1 "T1" c1File c1State rfl⟩

/-- A soft-deleted catalog row carrying the fingerprint ("aaa", 5), used by
the C2 and C10 scenarios. -/
def c2Record : PhotoRecord :=
  { id := 1, filename := "a.jpg", path := "old/a.jpg", md5 := "aaa",
    size := 5, created_at := some "2024-03-05T14:30:00", imported_at := "T0",
    type := "jpg", exif_json := none, thumbnail_path := none,
    is_deleted := true }

/-- Library state whose only catalog row is soft-deleted (C2). -/
def c2State : LibState :=
  { dirs := [], fsFiles := [],
    catalog := { photos := [c2Record], nextId := 2 } }

/-- A new source file with the fingerprint of the soft-deleted row (C2). -/
def c2File : SrcFile :=
  { path := "src/a.jpg", md5 := "aaa", size := 5, exifReadable := true,
    tags := [], exif := none, mtime := ⟨2024, 3, 5, 14, 30, 0⟩ }

/-- C2 counterexample: on this concrete state the insert is reached and
rejected for a uniqueness violation, yet `add_photo` folds it into the
same `none` as any generic failure and the orchestrator classifies the
file as errored, not skipped - refuting the claim's "skip, not error". -/
theorem C2_counterexample_duplicate_insert_errored :
    c2State.catalog.photo_exists c2File.md5 c2File.size = false ∧
    c2State.catalog.violatesUnique (importData "T1" c2File "2024/03/05/a.jpg") =
      true ∧
    (c2State.catalog.add_photo (importData "T1" c2File "2024/03/05/a.jpg")).1 =
      none ∧
    (import_single_photo "T1" c2File c2State).outcome = "error" ∧
    ¬((import_single_photo "T1" c2File c2State).outcome = "skipped") := by
  refine ⟨rfl, rfl, rfl, rfl, ?_⟩
  intro h
  have h2 : ("error" : String) = "skipped" := h
  exact absurd h2 (by decide)

/-- C2 (amended): an insert that violates the (md5, size) or path
uniqueness invariant is rejected without inserting, but with the same
generic `None` as any other failure (the catalog is left unchanged); and
once the pre-insert duplicate check has passed, the orchestrator classifies
the file as imported or errored - never skipped.  Skip classification
happens only through the pre-insert `photo_exists` check. -/
theorem C2_duplicate_insert_generic_failure :
    (∀ (c : Catalog) (d : PhotoData),
        c.violatesUnique d = true → c.add_photo d = (none, c)) ∧
    (∀ (now : String) (f : SrcFile) (st : LibState),
        st.catalog.photo_exists f.md5 f.size = false →
        (import_single_photo now f st).outcome = "success" ∨
          (import_single_photo now f st).outcome = "error") := by
  constructor
  · intro c d h
    simp only [Catalog.add_photo]
    rw [if_pos h]
  · intro now f st h
    rcases import_struct now f st with ⟨htrue, _⟩ | ⟨_, _, heq⟩ |
      ⟨final, fs2, _, _, hrest⟩
    · rw [h] at htrue; exact Bool.noConfusion htrue
    · right; rw [heq]
    · rcases hrest with ⟨_, heq⟩ | ⟨_, heq⟩
      · left; rw [heq]
      · right; rw [heq]

/-- C2 witness: the concrete duplicate-violating insert returns the
generic failure and leaves the catalog unchanged. -/
theorem C2_duplicate_insert_generic_failure_witness :
    c2State.catalog.violatesUnique (importData "T1" c2File "2024/03/05/a.jpg") =
      true ∧
    c2State.catalog.add_photo (importData "T1" c2File "2024/03/05/a.jpg") =
      (none, c2State.catalog) :=
  ⟨rfl, C2_duplicate_insert_generic_failure.1 c2State.catalog
    (importData "T1" c2File "2024/03/05/a.jpg") rfl⟩

/-- C10: the schema's UNIQUE constraints range over all rows, deleted ones
included, while `photo_exists` filters to live rows; so content matching
only a soft-deleted row passes the duplicate check, yet every insert with
that fingerprint is rejected (`add_photo` returns `None`, catalog
unchanged) and the per-file import ends in the errored outcome with the
catalog unchanged - such content can never become a live record again. -/
theorem C10_tombstone_blocks_reimport (now : String) (f : SrcFile)
    (st : LibState)
    (hdel : (st.catalog.photos.any fun p =>
        p.md5 == f.md5 && p.size == f.size && p.is_deleted) = true)
    (hlive : st.catalog.photo_exists f.md5 f.size = false) :
    DatabaseManager.photo_exists_by_hash st.catalog f.md5 f.size = false ∧
    (∀ d : PhotoData, d.md5 = f.md5 → d.size = f.size →
        st.catalog.add_photo d = (none, st.catalog)) ∧
    (import_single_photo now f st).outcome = "error" ∧
    (import_single_photo now f st).state.catalog = st.catalog := by
  have hviol : ∀ d : PhotoData, d.md5 = f.md5 → d.size = f.size →
      st.catalog.violatesUnique d = true := by
    intro d h1 h2
    simp only [List.any_eq_true, Bool.and_eq_true] at hdel
    obtain ⟨p, hp, hpd⟩ := hdel
    simp only [Catalog.violatesUnique, List.any_eq_true]
    refine ⟨p, hp, ?_⟩
    rw [h1, h2]
    simp only [Bool.or_eq_true, Bool.and_eq_true]
    exact Or.inl ⟨hpd.1.1, hpd.1.2⟩
  refine ⟨hlive, ?_, ?_, ?_⟩
  · intro d h1 h2
    simp only [Catalog.add_photo]
    rw [if_pos (hviol d h1 h2)]
  · rcases import_struct now f st with ⟨htrue, _⟩ | ⟨_, _, heq⟩ |
      ⟨final, fs2, _, _, hrest⟩
    · rw [hlive] at htrue; exact Bool.noConfusion htrue
    · rw [heq]
    · rcases hrest with ⟨hvf, heq⟩ | ⟨_, heq⟩
      · have h2 := hviol (importData now f final) rfl rfl
        rw [h2] at hvf
        exact Bool.noConfusion hvf
      · rw [heq]
  · rcases import_struct now f st with ⟨htrue, _⟩ | ⟨_, _, heq⟩ |
      ⟨final, fs2, _, _, hrest⟩
    · rw [hlive] at htrue; exact Bool.noConfusion htrue
    · rw [heq]
    · rcases hrest with ⟨hvf, heq⟩ | ⟨_, heq⟩
      · have h2 := hviol (importData now f final) rfl rfl
        rw [h2] at hvf
        exact Bool.noConfusion hvf
      · rw [heq]

/-- A soft-deleted catalog row with fingerprint ("bbb", 9) (C10 witness). -/
def c10Record : PhotoRecord :=
  { id := 7, filename := "b.jpg", path := "old/b.jpg", md5 := "bbb",
    size := 9, created_at := none, imported_at := "T0", type := "jpg",
    exif_json := none, thumbnail_path := none, is_deleted := true }

/-- Library state whose only catalog row is soft-deleted (C10 witness). -/
def c10State : LibState :=
  { dirs := [], fsFiles := [],
    catalog := { photos := [c10Record], nextId := 8 } }

/-- A new source file matching only the soft-deleted row (C10 witness). -/
def c10File : SrcFile :=
  { path := "in/b.jpg", md5 := "bbb", size := 9, exifReadable := false,
    tags := [], exif := none, mtime := ⟨2025, 8, 19, 18, 10, 23⟩ }

/-- C10 witness: the concrete re-import passes the duplicate check but is
rejected at insert and ends errored with the catalog unchanged. -/
theorem C10_tombstone_blocks_reimport_witness :
    ((c10State.catalog.photos.any fun p =>
        p.md5 == c10File.md5 && p.size == c10File.size && p.is_deleted) =
          true ∧
      c10State.catalog.photo_exists c10File.md5 c10File.size = false) ∧
    (DatabaseManager.photo_exists_by_hash c10State.catalog c10File.md5
        c10File.size = false ∧
      (∀ d : PhotoData, d.md5 = c10File.md5 → d.size = c10File.size →
          c10State.catalog.add_photo d = (none, c10State.catalog)) ∧
      (import_single_photo "T2" c10File c10State).outcome = "error" ∧
      (import_single_photo "T2" c10File c10State).state.catalog =
        c10State.catalog) :=
  ⟨⟨rfl, rfl⟩, C10_tombstone_blocks_reimport "T2" c10File c10State rfl rfl⟩

theorem mem_insertSorted (le : PhotoRecord → PhotoRecord → Bool)
    (p x : PhotoRecord) :
    ∀ l : List PhotoRecord, x ∈ insertSorted le p l ↔ x = p ∨ x ∈ l := by
  intro l
  induction l with
  | nil => simp [insertSorted]
  | cons q qs ih =>
    simp only [insertSorted]
    split
    · simp [List.mem_cons]
    · simp only [List.mem_cons, ih]
      tauto

theorem mem_sortBy (le : PhotoRecord → PhotoRecord → Bool) (x : PhotoRecord) :
    ∀ l : List PhotoRecord, x ∈ sortBy le l ↔ x ∈ l := by
  intro l
  induction l with
  | nil => simp [sortBy]
  | cons q qs ih =>
    simp only [sortBy, mem_insertSorted, ih, List.mem_cons]

theorem mem_query_struct (le : PhotoRecord → PhotoRecord → Bool)
    (q : PhotoRecord → Bool) (l : List PhotoRecord) (row : PhotoRow)
    (k : Nat) (h : row ∈ ((sortBy le (l.filter q)).take k).map mkRow) :
    ∃ p, p ∈ l ∧ q p = true ∧ row = mkRow p := by
  obtain ⟨p, hp, hrow⟩ := List.mem_map.mp h
  have hp2 := List.mem_of_mem_take hp
  rw [mem_sortBy] at hp2
  obtain ⟨hmem, hq⟩ := List.mem_filter.mp hp2
  exact ⟨p, hmem, hq, hrow.symm⟩

theorem mem_query_struct_all (le : PhotoRecord → PhotoRecord → Bool)
    (q : PhotoRecord → Bool) (l : List PhotoRecord) (row : PhotoRow)
    (h : row ∈ (sortBy le (l.filter q)).map mkRow) :
    ∃ p, p ∈ l ∧ q p = true ∧ row = mkRow p := by
  obtain ⟨p, hp, hrow⟩ := List.mem_map.mp h
  rw [mem_sortBy] at hp
  obtain ⟨hmem, hq⟩ := List.mem_filter.mp hp
  exact ⟨p, hmem, hq, hrow.symm⟩

/-- After a soft delete, every row carrying the deleted id is marked
deleted. -/
theorem delete_marks (c : Catalog) (pid : Nat) :
    ∀ p ∈ ((c.delete_photo pid true).1).photos,
      p.id = pid → p.is_deleted = true := by
  intro p hp hid
  simp only [Catalog.delete_photo, if_pos] at hp
  obtain ⟨q, hq, hgq⟩ := List.mem_map.mp hp
  by_cases hqid : q.id == pid
  · rw [if_pos hqid] at hgq
    rw [← hgq]
  · rw [if_neg hqid] at hgq
    subst hgq
    rw [hid] at hqid
    simp at hqid

theorem live_count_delete (pid : Nat) :
    ∀ l : List PhotoRecord,
      (l.map fun p => p.id).Nodup →
      (∃ p ∈ l, p.id = pid ∧ p.is_deleted = false) →
      ((l.map fun p =>
          if p.id == pid then { p with is_deleted := true } else p).filter
        fun p => !p.is_deleted).length + 1 =
        (l.filter fun p => !p.is_deleted).length := by
  intro l
  induction l with
  | nil => intro _ hex; simp at hex
  | cons q qs ih =>
    intro hnodup hex
    simp only [List.map_cons, List.nodup_cons, List.mem_map] at hnodup
    by_cases hqid : q.id = pid
    · have hmapid : (qs.map fun p =>
          if p.id == pid then { p with is_deleted := true } else p) = qs := by
        have : ∀ p ∈ qs, (if p.id == pid then
            { p with is_deleted := true } else p) = p := by
          intro p hp
          rw [if_neg]
          intro hcon
          simp only [beq_iff_eq] at hcon
          exact hnodup.1 ⟨p, hp, by rw [hcon, hqid]⟩
        calc (qs.map fun p => if p.id == pid then
                { p with is_deleted := true } else p)
            = qs.map id := List.map_congr_left this
          _ = qs := List.map_id qs
      have hqlive : q.is_deleted = false := by
        obtain ⟨p, hp, hpid, hplive⟩ := hex
        rcases List.mem_cons.mp hp with hpq | hptail
        · rw [hpq] at hplive; exact hplive
        · exact absurd ⟨p, hptail, by rw [hpid, hqid]⟩ hnodup.1
      simp only [List.map_cons]
      rw [hmapid]
      rw [if_pos (beq_iff_eq.mpr hqid : (q.id == pid) = true)]
      rw [List.filter_cons, List.filter_cons]
      simp [hqlive]
    · have hex2 : ∃ p ∈ qs, p.id = pid ∧ p.is_deleted = false := by
        obtain ⟨p, hp, hpid, hplive⟩ := hex
        rcases List.mem_cons.mp hp with hpq | hptail
        · exact absurd (by rw [← hpq]; exact hpid) hqid
        · exact ⟨p, hptail, hpid, hplive⟩
      have hih := ih hnodup.2 hex2
      have hqid2 : (q.id == pid) = false := by
        simp only [beq_eq_false_iff_ne, ne_eq]
        exact hqid
      have hcond : ¬((q.id == pid) = true) := by
        rw [hqid2]
        exact Bool.false_ne_true
      simp only [List.map_cons]
      rw [if_neg hcond]
      rw [List.filter_cons, List.filter_cons]
      by_cases hqd : (!q.is_deleted) = true
      · rw [if_pos hqd, if_pos hqd]
        simp only [List.length_cons]
        omega
      · rw [if_neg (by simpa using hqd), if_neg (by simpa using hqd)]
        exact hih

/-- A live catalog row for the C7 scenario. -/
def c7Record : PhotoRecord :=
  { id := 1, filename := "a.jpg", path := "2024/03/05/a.jpg", md5 := "aaa",
    size := 5, created_at := some "2024-03-05T14:30:00", imported_at := "T0",
    type := "jpg", exif_json := none, thumbnail_path := none,
    is_deleted := false }

/-- A one-row catalog for the C7 scenario. -/
def c7Catalog : Catalog :=
  { photos := [c7Record], nextId := 2 }

/-- C7 counterexample: the record is retrievable by direct id lookup while
live, but after the soft delete `get_photo_by_id` returns nothing - its
query also filters on `is_deleted = 0` - refuting the claim that the
record is "still retrievable by direct id lookup with is_deleted=true". -/
theorem C7_counterexample_id_lookup_after_delete :
    (c7Catalog.get_photo_by_id 1).isSome = true ∧
    ((c7Catalog.delete_photo 1 true).1).get_photo_by_id 1 = none := by
  exact ⟨rfl, rfl⟩

/-- C7 (amended): soft-deleting a live record removes it from
`get_recent_photos`, filename search, date-range and type queries, and
decrements the stats count - but it is NOT retrievable by direct id lookup
either: `get_photo_by_id` filters soft-deleted rows out and returns
nothing; the row survives only in the underlying table. -/
theorem C7_soft_delete_hides_everywhere (c : Catalog) (pid : Nat)
    (r : PhotoRow) (limit : Nat) (pat start_date end_date photo_type : String)
    (hnodup : (c.photos.map fun p => p.id).Nodup)
    (hfind : c.get_photo_by_id pid = some r) :
    (∀ row ∈ ((c.delete_photo pid true).1).get_recent_photos limit,
        row.record.id ≠ pid) ∧
    (∀ row ∈ ((c.delete_photo pid true).1).search_photos_by_filename pat,
        row.record.id ≠ pid) ∧
    (∀ row ∈ ((c.delete_photo pid true).1).get_photos_by_date_range
        start_date end_date, row.record.id ≠ pid) ∧
    (∀ row ∈ ((c.delete_photo pid true).1).get_photos_by_type photo_type,
        row.record.id ≠ pid) ∧
    ((c.delete_photo pid true).1).get_photos_stats.total_count + 1 =
      c.get_photos_stats.total_count ∧
    ((c.delete_photo pid true).1).get_photo_by_id pid = none := by
  have hex : ∃ p ∈ c.photos, p.id = pid ∧ p.is_deleted = false := by
    simp only [Catalog.get_photo_by_id] at hfind
    cases hf : c.photos.find? fun p => p.id == pid && !p.is_deleted with
    | none => rw [hf] at hfind; exact Option.noConfusion hfind
    | some p =>
      have hmem := List.mem_of_find?_eq_some hf
      have hpred := List.find?_some hf
      simp only [Bool.and_eq_true, beq_iff_eq, Bool.not_eq_true'] at hpred
      exact ⟨p, hmem, hpred.1, hpred.2⟩
  have habs : ∀ p ∈ ((c.delete_photo pid true).1).photos,
      (!p.is_deleted) = true → p.id ≠ pid := by
    intro p hp hlive hpid
    have hdel := delete_marks c pid p hp hpid
    rw [hdel] at hlive
    exact Bool.noConfusion hlive
  refine ⟨?_, ?_, ?_, ?_, ?_, ?_⟩
  · intro row hrow
    obtain ⟨p, hp, hq, hrow2⟩ := mem_query_struct byImportedDesc _ _ row
      limit hrow
    rw [hrow2]
    exact habs p hp hq
  · intro row hrow
    obtain ⟨p, hp, hq, hrow2⟩ := mem_query_struct_all byImportedDesc _ _ row
      hrow
    rw [hrow2]
    simp only [Bool.and_eq_true] at hq
    exact habs p hp hq.2
  · intro row hrow
    obtain ⟨p, hp, hq, hrow2⟩ := mem_query_struct_all byCreatedDesc _ _ row
      hrow
    rw [hrow2]
    simp only [Bool.and_eq_true] at hq
    exact habs p hp hq.2
  · intro row hrow
    obtain ⟨p, hp, hq, hrow2⟩ := mem_query_struct_all byImportedDesc _ _ row
      hrow
    rw [hrow2]
    simp only [Bool.and_eq_true] at hq
    exact habs p hp hq.2
  · have hc2 : ((c.delete_photo pid true).1).photos =
        c.photos.map fun p =>
          if p.id == pid then { p with is_deleted := true } else p := rfl
    simp only [Catalog.get_photos_stats, hc2]
    exact live_count_delete pid c.photos hnodup hex
  · simp only [Catalog.get_photo_by_id]
    have hnone : ((c.delete_photo pid true).1).photos.find?
        (fun p => p.id == pid && !p.is_deleted) = none := by
      rw [List.find?_eq_none]
      intro p hp hcon
      simp only [Bool.and_eq_true, beq_iff_eq] at hcon
      exact habs p hp hcon.2 hcon.1
    rw [hnone]

/-- C7 witness: the amended behaviour at the concrete one-row catalog. -/
theorem C7_soft_delete_hides_everywhere_witness :
    ((c7Catalog.photos.map fun p => p.id).Nodup ∧
      c7Catalog.get_photo_by_id 1 = some (mkRow c7Record)) ∧
    ((∀ row ∈ ((c7Catalog.delete_photo 1 true).1).get_recent_photos 20,
        row.record.id ≠ 1) ∧
      (∀ row ∈ ((c7Catalog.delete_photo 1 true).1).search_photos_by_filename
          "%", row.record.id ≠ 1) ∧
      (∀ row ∈ ((c7Catalog.delete_photo 1 true).1).get_photos_by_date_range
          "2024-01-01" "2024-12-31", row.record.id ≠ 1) ∧
      (∀ row ∈ ((c7Catalog.delete_photo 1 true).1).get_photos_by_type "jpg",
        row.record.id ≠ 1) ∧
      ((c7Catalog.delete_photo 1 true).1).get_photos_stats.total_count + 1 =
        c7Catalog.get_photos_stats.total_count ∧
      ((c7Catalog.delete_photo 1 true).1).get_photo_by_id 1 = none) :=
  ⟨⟨by decide, rfl⟩,
   C7_soft_delete_hides_everywhere c7Catalog 1 (mkRow c7Record) 20 "%"
     "2024-01-01" "2024-12-31" "jpg" (by decide) rfl⟩

/-- A PIL `_getexif` mapping with a nested GPS sub-mapping whose
coordinates are rational numerator/denominator tuple encodings - the GPS
test data of src/debug_gps_display.py (Beijing, 39°54'26.43"N
116°23'51.23"E). -/
def gpsExifDemo : List (String × PyVal) :=
  [("Make", .pyStr "Canon"),
   ("Model", .pyStr "EOS R5"),
   ("DateTime", .pyStr "2024:12:01 14:30:22"),
   ("ExifImageWidth", .pyInt 8192),
   ("FNumber", .pyFloat "2.8"),
   ("ExposureTime", .pyTuple [.pyInt 1, .pyInt 125]),
   ("GPSInfo", .pyDict
     [("GPSVersionID", .pyTuple [.pyInt 2, .pyInt 3, .pyInt 0, .pyInt 0]),
      ("GPSLatitudeRef", .pyStr "N"),
      ("GPSLatitude", .pyTuple
        [.pyTuple [.pyInt 39, .pyInt 1], .pyTuple [.pyInt 54, .pyInt 1],
         .pyTuple [.pyInt 2643, .pyInt 100]]),
      ("GPSLongitudeRef", .pyStr "E"),
      ("GPSLongitude", .pyTuple
        [.pyTuple [.pyInt 116, .pyInt 1], .pyTuple [.pyInt 23, .pyInt 1],
         .pyTuple [.pyInt 5123, .pyInt 100]]),
      ("GPSAltitude", .pyTuple [.pyInt 4350, .pyInt 100])])]

/-- What `extract_exif_data` actually produces on `gpsExifDemo`: the flat
string/int/float fields survive, the 2-tuple is rendered as "1/125", and
the whole `GPSInfo` sub-mapping is gone. -/
def c6Extracted : List (String × PyVal) :=
  [("Make", .pyStr "Canon"),
   ("Model", .pyStr "EOS R5"),
   ("DateTime", .pyStr "2024:12:01 14:30:22"),
   ("ExifImageWidth", .pyInt 8192),
   ("FNumber", .pyFloat "2.8"),
   ("ExposureTime", .pyStr "1/125")]

/-- C6 (code bug): the metadata pipeline is NOT lossless for nested GPS
structures.  On a photo whose EXIF carries the nested `GPSInfo` rational
sub-mapping, `extract_exif_data` silently drops the `GPSInfo` field (dict
values match none of its isinstance cases), so what the Catalog Store
persists and re-reads - the serialize/deserialize cycle is the identity on
the surviving flat fields - has no GPS data at all; moreover even a nested
mapping persisted directly would come back with its rational tuples turned
into JSON lists, which are not structurally equal to the original tuples.
The repository's own debug tests (src/debug_import_exif.py) expect
`GPSInfo` to be present after extraction and after the JSON round-trip. -/
theorem C6_gps_metadata_dropped :
    (gpsExifDemo.lookup "GPSInfo").isSome = true ∧
    extract_exif_data (some gpsExifDemo) = some c6Extracted ∧
    c6Extracted.lookup "GPSInfo" = none ∧
    json_value (.pyDict c6Extracted) = .pyDict c6Extracted ∧
    json_value (.pyDict [("GPSAltitude", .pyTuple [.pyInt 4350, .pyInt 100])]) =
      .pyDict [("GPSAltitude", .pyList [.pyInt 4350, .pyInt 100])] ∧
    PyVal.pyTuple [.pyInt 4350, .pyInt 100] ≠
      PyVal.pyList [.pyInt 4350, .pyInt 100] := by
  refine ⟨rfl, rfl, rfl, rfl, rfl, ?_⟩
  intro h
  exact PyVal.noConfusion h

theorem importFold_consistentB (now : String) :
    ∀ (l : List SrcFile) (st : LibState), consistentB st = true →
      consistentB (importFold now l st) = true := by
  intro l
  induction l with
  | nil => intro st h; exact h
  | cons f rest ih =>
    intro st h
    simp only [importFold, List.foldl_cons]
    exact ih _ (import_consistentB now f st h)

/-- C9: progress signals of a batch are emitted strictly in candidate-list
order - the progress events of the trace are exactly one per processed
file, carrying the 1-based monotonically increasing index and the file's
path - and the completion signal is emitted exactly once, as the very last
event of the trace (immediately after the loop, so immediately upon
observed cancellation when the batch was cancelled). -/
theorem C9_progress_order_and_single_completion (now : String)
    (flag : Nat → Bool) (files : List SrcFile) (st : LibState) :
    ∃ n s k e, n ≤ files.length ∧
      (PhotoImportWorker.run now flag files st).trace.filter isProgress =
        (List.enumFrom 0 (files.take n)).map
          (fun q => Event.progress (q.1 + 1) files.length q.2.path) ∧
      (PhotoImportWorker.run now flag files st).trace.filter isCompleted =
        [.importCompleted s k e] ∧
      (PhotoImportWorker.run now flag files st).trace.getLast? =
        some (.importCompleted s k e) := by
  have hrun := runAux_eq now flag files.length files 0 st 0 0 0
  refine ⟨stopCount flag 0 files,
    (outcomeCounts now (files.take (stopCount flag 0 files)) st).1,
    (outcomeCounts now (files.take (stopCount flag 0 files)) st).2.1,
    (outcomeCounts now (files.take (stopCount flag 0 files)) st).2.2,
    stopCount_le flag files 0, ?_, ?_, ?_⟩
  · simp only [PhotoImportWorker.run, hrun]
    rw [List.filter_append, specTrace_filter_progress]
    simp [isProgress]
  · simp only [PhotoImportWorker.run, hrun]
    rw [List.filter_append, specTrace_filter_completed]
    simp [isCompleted]
  · simp only [PhotoImportWorker.run, hrun]
    simp

/-- C8: cancellation is cooperative - the flag is read only at the top of
each per-file iteration, so the processed files are exactly an untouched
prefix (every file before the stopping point saw a false flag, and the
stopping point, when inside the batch, read true; the final state is the
full sequential import of that prefix, each in-flight file completing); a
completion signal with success+skipped+errors equal to the number of
processed files (at most the batch total) is still emitted; and no record
is ever persisted without its copy: a consistent state (every catalog
row's file present in the library) stays consistent - the copy-then-insert
ordering leaves at worst an orphaned copy, never a cataloged row without a
file. -/
theorem C8_cooperative_cancellation (now : String) (flag : Nat → Bool)
    (files : List SrcFile) (st : LibState)
    (hcons : consistentB st = true) :
    ∃ n s k e, n ≤ files.length ∧
      (∀ j, j < n → flag j = false) ∧
      (n < files.length → flag n = true) ∧
      (PhotoImportWorker.run now flag files st).state =
        importFold now (files.take n) st ∧
      Event.importCompleted s k e ∈
        (PhotoImportWorker.run now flag files st).trace ∧
      s + k + e = n ∧
      consistentB (PhotoImportWorker.run now flag files st).state = true := by
  have hrun := runAux_eq now flag files.length files 0 st 0 0 0
  have hn := stopCount_le flag files 0
  refine ⟨stopCount flag 0 files,
    (outcomeCounts now (files.take (stopCount flag 0 files)) st).1,
    (outcomeCounts now (files.take (stopCount flag 0 files)) st).2.1,
    (outcomeCounts now (files.take (stopCount flag 0 files)) st).2.2,
    hn, ?_, ?_, ?_, ?_, ?_, ?_⟩
  · intro j hj
    have := stopCount_flag_false flag files 0 j hj
    simpa using this
  · intro hlt
    have := stopCount_flag_true flag files 0 hlt
    simpa using this
  · simp only [PhotoImportWorker.run, hrun]
  · simp only [PhotoImportWorker.run, hrun]
    simp
  · have hsum := outcomeCounts_sum now (files.take (stopCount flag 0 files)) st
    rw [List.length_take] at hsum
    rw [hsum]
    exact Nat.min_eq_left hn
  · simp only [PhotoImportWorker.run, hrun]
    exact importFold_consistentB now _ st hcons

/-- An empty, trivially consistent library state (C8 witness). -/
def c8State : LibState :=
  { dirs := [], fsFiles := [], catalog := { photos := [], nextId := 1 } }

/-- A single candidate file (C8 witness). -/
def c8File : SrcFile :=
  { path := "in/a.jpg", md5 := "a8", size := 3, exifReadable := true,
    tags := [("EXIF DateTimeOriginal", "2024:03:05 14:30:00")], exif := none,
    mtime := ⟨2020, 1, 1, 0, 0, 0⟩ }

/-- C8 witness: the uncancelled one-file batch on the empty state. -/
theorem C8_cooperative_cancellation_witness :
    consistentB c8State = true ∧
    (∃ n s k e, n ≤ [c8File].length ∧
      (∀ j, j < n → (fun _ : Nat => false) j = false) ∧
      (n < [c8File].length → (fun _ : Nat => false) n = true) ∧
      (PhotoImportWorker.run "T3" (fun _ => false) [c8File] c8State).state =
        importFold "T3" ([c8File].take n) c8State ∧
      Event.importCompleted s k e ∈
        (PhotoImportWorker.run "T3" (fun _ => false) [c8File] c8State).trace ∧
      s + k + e = n ∧
      consistentB (PhotoImportWorker.run "T3" (fun _ => false) [c8File]
        c8State).state = true) :=
  ⟨rfl, C8_cooperative_cancellation "T3" (fun _ => false) [c8File] c8State rfl⟩
